import Mathlib

set_option maxRecDepth 40000

/-!
Verification development for the AnchorGrid market-data caching and
indicator engine.  Python floating-point arithmetic is modelled by exact
rationals; an IEEE NaN entry of a numpy array is modelled by `none` in
`Option ℚ`, and every arithmetic operation propagates `none` exactly as
IEEE arithmetic propagates NaN.  Python `None` results are likewise
modelled by `none`.
-/

namespace AnchorGrid

/-! ## Batch indicators
Embedding of `src/anchorgrid/plugins/finance/extractors/indicators.py`
(the identical module is re-exported as `quantgrid.indicators.indicators`). -/

/-- NaN-propagating subtraction on array entries. -/
def oSub : Option ℚ → Option ℚ → Option ℚ
  | some a, some b => some (a - b)
  | _, _ => none

/-- One step of the EMA recurrence `alpha * x + (1 - alpha) * prev`,
propagating NaN from either operand. -/
def oComb (alpha : ℚ) : Option ℚ → Option ℚ → Option ℚ
  | some x, some prev => some (alpha * x + (1 - alpha) * prev)
  | _, _ => none

/-- The EMA recurrence `result[i] = alpha*prices[i] + (1-alpha)*result[i-1]`
running over the tail of the input, given the previous output value. -/
def emaFrom (alpha : ℚ) : Option ℚ → List (Option ℚ) → List (Option ℚ)
  | _, [] => []
  | prev, x :: xs =>
    let r := oComb alpha x prev
    r :: emaFrom alpha r xs

/-- Overwrite the first `k` entries with NaN: models
`result[:period-1] = np.nan`. -/
def maskWarmup (k : ℕ) (l : List (Option ℚ)) : List (Option ℚ) :=
  (l.take k).map (fun _ => none) ++ l.drop k

/-- Batch `ema(prices, period)`.  Inputs are `Option ℚ` because `macd`
feeds the NaN-bearing `macd_line` array back into `ema`.  Matches the
source: all-NaN when fewer than `period` samples, seed `result[0] =
prices[0]`, EMA recurrence for the rest, then the first `period-1`
entries are overwritten with NaN. -/
def ema (prices : List (Option ℚ)) (period : ℕ) : List (Option ℚ) :=
  if prices.length < period then List.replicate prices.length none
  else
    match prices with
    | [] => []
    | p :: rest => maskWarmup (period - 1) (p :: emaFrom (2 / ((period : ℚ) + 1)) p rest)

/-- Wilder smoothing scan: emits the running average starting with the
seed, one step per new gain/loss:
`avg[i] = (avg[i-1] * (period - 1) + new[i]) / period`. -/
def wilderScan (period : ℕ) (avg : ℚ) : List ℚ → List ℚ
  | [] => [avg]
  | x :: xs => avg :: wilderScan period ((avg * ((period : ℚ) - 1) + x) / (period : ℚ)) xs

/-- Batch `rsi(prices, period)`.  Matches the source: all-NaN when fewer
than `period+1` samples; deltas split into gains and losses; seed
averages are simple means of the first `period` deltas; Wilder smoothing
thereafter; `rs` falls back to `100` (not RSI itself) when the average
loss is zero, exactly as the numpy `np.where(avg_loss != 0, avg_gain /
avg_loss, 100)` does; output defined from index `period` on
(`result[period:] = rsi_values[period-1:]`).  The leading zero region of
the numpy average arrays (indices below `period-1`) never reaches the
returned slice and is therefore not materialised here. -/
def rsi (prices : List ℚ) (period : ℕ) : List (Option ℚ) :=
  if prices.length < period + 1 then List.replicate prices.length none
  else
    let deltas := List.zipWith (fun a b => b - a) prices prices.tail
    let gains := deltas.map (fun d => if d > 0 then d else 0)
    let losses := deltas.map (fun d => if d < 0 then -d else 0)
    let initGain := (gains.take period).sum / (period : ℚ)
    let initLoss := (losses.take period).sum / (period : ℚ)
    let avgGains := wilderScan period initGain (gains.drop period)
    let avgLosses := wilderScan period initLoss (losses.drop period)
    let rsiVals := List.zipWith
      (fun g l =>
        let rs := if l ≠ 0 then g / l else 100
        100 - 100 / (1 + rs))
      avgGains avgLosses
    List.replicate period none ++ rsiVals.map some

/-- Batch `macd(prices, fast, slow, signal)`: returns
`(macd_line, signal_line, histogram)`. -/
def macd (prices : List ℚ) (fast slow signal : ℕ) :
    List (Option ℚ) × List (Option ℚ) × List (Option ℚ) :=
  let emaFast := ema (prices.map some) fast
  let emaSlow := ema (prices.map some) slow
  let macdLine := List.zipWith oSub emaFast emaSlow
  let signalLine := ema macdLine signal
  let histogram := List.zipWith oSub macdLine signalLine
  (macdLine, signalLine, histogram)

/-! ## Incremental state machines
Embedding of `src/quantgrid/indicators/state.py`. -/

/-- Incremental EMA state.  The `alpha` field of the Python dataclass is
derived from `period` in `__post_init__` and never mutated; it is
modelled as the function `EMAState.alpha`. -/
structure EMAState where
  period : ℕ
  value : Option ℚ := none
  count : ℕ := 0
deriving DecidableEq, Repr

def EMAState.alpha (s : EMAState) : ℚ := 2 / ((s.period : ℚ) + 1)

/-- Embeds `EMAState.update`: returns the updated state and the Python return
value (`None` during warm-up, the running EMA afterwards). -/
def EMAState.update (s : EMAState) (price : ℚ) : EMAState × Option ℚ :=
  let count := s.count + 1
  let value :=
    match s.value with
    | none => price
    | some v => s.alpha * price + (1 - s.alpha) * v
  let s2 := { s with count := count, value := some value }
  (s2, if count < s.period then none else some value)

/-- Incremental RSI state. -/
structure RSIState where
  period : ℕ := 14
  avgGain : ℚ := 0
  avgLoss : ℚ := 0
  prevPrice : Option ℚ := none
  count : ℕ := 0
  gainsBuffer : List ℚ := []
  lossesBuffer : List ℚ := []
deriving DecidableEq, Repr

/-- Embeds `RSIState.update`: first price only records `prev_price`; the first
`period` changes are buffered and seed the averages at the warm-up
boundary (still returning `None` there); afterwards Wilder smoothing,
returning exactly `100` when the average loss is zero. -/
def RSIState.update (s : RSIState) (price : ℚ) : RSIState × Option ℚ :=
  match s.prevPrice with
  | none => ({ s with prevPrice := some price }, none)
  | some prev =>
    let change := price - prev
    let gain := max 0 change
    let loss := max 0 (-change)
    let count := s.count + 1
    if count ≤ s.period then
      let gb := s.gainsBuffer ++ [gain]
      let lb := s.lossesBuffer ++ [loss]
      if count = s.period then
        ({ s with
            prevPrice := some price
            count := count
            avgGain := gb.sum / (s.period : ℚ)
            avgLoss := lb.sum / (s.period : ℚ)
            gainsBuffer := []
            lossesBuffer := [] }, none)
      else
        ({ s with
            prevPrice := some price
            count := count
            gainsBuffer := gb
            lossesBuffer := lb }, none)
    else
      let avgGain := (s.avgGain * ((s.period : ℚ) - 1) + gain) / (s.period : ℚ)
      let avgLoss := (s.avgLoss * ((s.period : ℚ) - 1) + loss) / (s.period : ℚ)
      let s2 := { s with
          prevPrice := some price
          count := count
          avgGain := avgGain
          avgLoss := avgLoss }
      if avgLoss = 0 then (s2, some 100)
      else (s2, some (100 - 100 / (1 + avgGain / avgLoss)))

/-- Incremental MACD state: three nested EMA states. -/
structure MACDState where
  fastEma : EMAState := { period := 12 }
  slowEma : EMAState := { period := 26 }
  signalEma : EMAState := { period := 9 }
deriving DecidableEq, Repr

/-- Embeds `MACDState.update`: the fast and slow EMAs are always advanced; the
signal EMA is advanced only once both are warmed up, as in the source. -/
def MACDState.update (s : MACDState) (price : ℚ) :
    MACDState × Option (ℚ × ℚ × ℚ) :=
  let (fastS, fast) := s.fastEma.update price
  let (slowS, slow) := s.slowEma.update price
  match fast, slow with
  | some f, some sl =>
    let macdLine := f - sl
    let (sigS, sigV) := s.signalEma.update macdLine
    let s2 : MACDState := { fastEma := fastS, slowEma := slowS, signalEma := sigS }
    match sigV with
    | none => (s2, none)
    | some sg => (s2, some (macdLine, sg, macdLine - sg))
  | _, _ => ({ s with fastEma := fastS, slowEma := slowS }, none)

/-- The dict returned by `IndicatorState.update`. -/
structure IndicatorSnapshot where
  ema20 : Option ℚ
  ema50 : Option ℚ
  rsi14 : Option ℚ
  macdVal : Option (ℚ × ℚ × ℚ)
deriving DecidableEq, Repr

/-- Combined per-ticker state for all indicators. -/
structure IndicatorState where
  ema20 : EMAState := { period := 20 }
  ema50 : EMAState := { period := 50 }
  rsi14 : RSIState := { period := 14 }
  macdState : MACDState := {}
deriving DecidableEq, Repr

def IndicatorState.update (s : IndicatorState) (price : ℚ) :
    IndicatorState × IndicatorSnapshot :=
  let (e20, v20) := s.ema20.update price
  let (e50, v50) := s.ema50.update price
  let (r14, vr) := s.rsi14.update price
  let (ms, vm) := s.macdState.update price
  ({ ema20 := e20, ema50 := e50, rsi14 := r14, macdState := ms },
   { ema20 := v20, ema50 := v50, rsi14 := vr, macdVal := vm })

/-- Feed a price list, oldest first, through a state machine and collect
the per-update outputs. -/
def runMachine {S A : Type} (upd : S → ℚ → S × A) : S → List ℚ → List A
  | _, [] => []
  | s, p :: ps =>
    let (s2, a) := upd s p
    a :: runMachine upd s2 ps

/-! ## Composite scorer
Embedding of `src/anchorgrid/plugins/finance/extractors/composite.py`
(re-exported as `quantgrid.indicators.composite`).  The `components`
dict of the source holds heterogeneous metadata (raw values, reason
strings); here each entry is modelled as its name paired with the
component score and reason, the only parts any claim touches. -/

inductive Signal where
  | STRONG_BUY | BUY | HOLD | SELL | STRONG_SELL
deriving DecidableEq, Repr

structure CompositeScore where
  signal : Signal
  score : ℚ
  confidence : ℚ
  components : List (String × ℚ × String)
deriving DecidableEq, Repr

/-- Embeds `calculate_rsi_signal`. -/
def calculate_rsi_signal (rsi : ℚ) : ℚ × String :=
  if rsi < 30 then (8/10, "oversold")
  else if rsi < 40 then (4/10, "near_oversold")
  else if rsi > 70 then (-(8/10), "overbought")
  else if rsi > 60 then (-(4/10), "near_overbought")
  else (0, "neutral")

/-- Embeds `calculate_macd_signal`. -/
def calculate_macd_signal (macdLine signalLine histogram : ℚ)
    (prevHistogram : Option ℚ) : ℚ × String :=
  if macdLine > signalLine ∧ histogram > 0 then
    match prevHistogram with
    | some ph => if ph ≤ 0 then (9/10, "fresh_bullish_crossover") else (6/10, "bullish_crossover")
    | none => (6/10, "bullish_crossover")
  else if macdLine < signalLine ∧ histogram < 0 then
    match prevHistogram with
    | some ph => if ph ≥ 0 then (-(9/10), "fresh_bearish_crossover") else (-(6/10), "bearish_crossover")
    | none => (-(6/10), "bearish_crossover")
  else (0, "neutral")

/-- Embeds `calculate_ema_signal`; the source collects at most one reason and
joins with underscores, so the joined string is written directly. -/
def calculate_ema_signal (price ema20 ema50 : ℚ) : ℚ × String :=
  if price > ema20 ∧ ema20 > ema50 then (7/10, "uptrend")
  else if price < ema20 ∧ ema20 < ema50 then (-(7/10), "downtrend")
  else if price > ema20 then (3/10, "above_ema20")
  else if price < ema20 then (-(3/10), "below_ema20")
  else (0, "neutral")

/-- The weights dict; the source default is
`{"rsi": 0.25, "macd": 0.35, "ema": 0.40}`. -/
structure Weights where
  rsi : ℚ
  macd : ℚ
  ema : ℚ
deriving DecidableEq, Repr

def defaultWeights : Weights := { rsi := 25/100, macd := 35/100, ema := 40/100 }

/-- Embeds `calculate_composite_score`.  Each optional component, when
supplied, contributes `score * weight` to the numerator, its weight to
the denominator, and `|score|` to the confidence factors; the EMA
component requires both `ema_20` and `ema_50`. -/
def calculate_composite_score (price : ℚ) (rsiVal : Option ℚ)
    (macdVal : Option (ℚ × ℚ × ℚ)) (ema20 ema50 : Option ℚ)
    (weights : Option Weights) : CompositeScore :=
  let w := weights.getD defaultWeights
  let rsiPart : List (String × ℚ × String) × ℚ × ℚ × List ℚ :=
    match rsiVal with
    | none => ([], 0, 0, [])
    | some r =>
      let sig := calculate_rsi_signal r
      ([("rsi", sig.1, sig.2)], sig.1 * w.rsi, w.rsi, [|sig.1|])
  let macdPart : List (String × ℚ × String) × ℚ × ℚ × List ℚ :=
    match macdVal with
    | none => ([], 0, 0, [])
    | some (line, sig, hist) =>
      let msig := calculate_macd_signal line sig hist none
      ([("macd", msig.1, msig.2)], msig.1 * w.macd, w.macd, [|msig.1|])
  let emaPart : List (String × ℚ × String) × ℚ × ℚ × List ℚ :=
    match ema20, ema50 with
    | some e20, some e50 =>
      let esig := calculate_ema_signal price e20 e50
      ([("ema", esig.1, esig.2)], esig.1 * w.ema, w.ema, [|esig.1|])
    | _, _ => ([], 0, 0, [])
  let components := rsiPart.1 ++ macdPart.1 ++ emaPart.1
  let totalScore := rsiPart.2.1 + macdPart.2.1 + emaPart.2.1
  let totalWeight := rsiPart.2.2.1 + macdPart.2.2.1 + emaPart.2.2.1
  let confidenceFactors := rsiPart.2.2.2 ++ macdPart.2.2.2 ++ emaPart.2.2.2
  let normalizedScore := if totalWeight > 0 then totalScore / totalWeight else 0
  let confidence :=
    if confidenceFactors.length ≠ 0 then
      confidenceFactors.sum / (confidenceFactors.length : ℚ)
    else 0
  let signal :=
    if normalizedScore ≥ 6/10 then Signal.STRONG_BUY
    else if normalizedScore ≥ 2/10 then Signal.BUY
    else if normalizedScore ≤ -(6/10) then Signal.STRONG_SELL
    else if normalizedScore ≤ -(2/10) then Signal.SELL
    else Signal.HOLD
  { signal := signal, score := normalizedScore, confidence := confidence,
    components := components }

/-! ## The analyze pipeline
The composite-signal slice of `QuantService.analyze`
(`src/quantgrid/services/quant_service.py`): batch indicators on the
price history, last entry of each output array turned into an optional
current value (`None` for NaN), fed into `calculate_composite_score`.
Regime detection and the bollinger/ATR fields of the result do not feed
the composite score and are omitted. -/
def analyzeComposite (prices : List ℚ) : CompositeScore :=
  let currentPrice := prices.getLastD 0
  let ema20Arr := ema (prices.map some) 20
  let ema50Arr := ema (prices.map some) 50
  let rsiArr := rsi prices 14
  let (macdLineArr, rest) := macd prices 12 26 9
  let ema20Val := ema20Arr.getLastD none
  let ema50Val := ema50Arr.getLastD none
  let rsiVal := rsiArr.getLastD none
  let macdLineVal := macdLineArr.getLastD none
  let macdSignalVal := rest.1.getLastD none
  let macdHistVal := rest.2.getLastD none
  let macdTuple :=
    match macdLineVal, macdSignalVal, macdHistVal with
    | some a, some b, some c => some (a, b, c)
    | _, _, _ => none
  calculate_composite_score currentPrice rsiVal macdTuple ema20Val ema50Val none

/-! ## Ticker access registry and tiers
Embedding of `src/anchorgrid/services/market_state_manager.py`.  Python
dicts keyed by ticker strings are modelled as association lists with a
first-match lookup and an update-or-append write. -/

inductive Tier where
  | HOT | WARM | COLD | FROZEN
deriving DecidableEq, Repr

def TIER_THRESHOLD_HOT : ℕ := 50
def TIER_THRESHOLD_WARM : ℕ := 5
def TIER_THRESHOLD_COLD : ℕ := 1

/-- Embeds `TickerRegistry._calculate_tier`. -/
def calculate_tier (count : ℕ) : Tier :=
  if count ≥ TIER_THRESHOLD_HOT then Tier.HOT
  else if count ≥ TIER_THRESHOLD_WARM then Tier.WARM
  else if count ≥ TIER_THRESHOLD_COLD then Tier.COLD
  else Tier.FROZEN

def dictGet {α : Type} (d : List (String × α)) (k : String) : Option α :=
  match d with
  | [] => none
  | (k2, v) :: rest => if k2 = k then some v else dictGet rest k

def dictSet {α : Type} (d : List (String × α)) (k : String) (v : α) :
    List (String × α) :=
  match d with
  | [] => [(k, v)]
  | (k2, v2) :: rest => if k2 = k then (k, v) :: rest else (k2, v2) :: dictSet rest k v

/-- Python `str.upper()`, character-wise ASCII uppercasing (ticker
symbols are ASCII). -/
def pyUpper (s : String) : String := ⟨s.data.map Char.toUpper⟩

structure TickerRegistry where
  accessCounts : List (String × ℕ) := []
  lastAccess : List (String × Int) := []
  tiers : List (String × Tier) := []
deriving DecidableEq, Repr

/-- Embeds `TickerRegistry.record_access`: uppercases the key, increments the
access count, recomputes the tier from the thresholds and stores it when
it changed.  The Redis persistence is fire-and-forget and outside this
model.  The Python function body has no return statement, so its return
value is `None`; that value is the second component here. -/
def record_access (reg : TickerRegistry) (ticker : String) (now : Int) :
    TickerRegistry × Option Tier :=
  let tk := pyUpper ticker
  let counts := dictSet reg.accessCounts tk ((dictGet reg.accessCounts tk).getD 0 + 1)
  let last := dictSet reg.lastAccess tk now
  let count := (dictGet counts tk).getD 0
  let newTier := calculate_tier count
  let oldTier := (dictGet reg.tiers tk).getD Tier.COLD
  let tiers := if newTier ≠ oldTier then dictSet reg.tiers tk newTier else reg.tiers
  ({ accessCounts := counts, lastAccess := last, tiers := tiers }, none)

/-- Embeds `TickerRegistry.get_tier`. -/
def get_tier (reg : TickerRegistry) (ticker : String) : Tier :=
  (dictGet reg.tiers (pyUpper ticker)).getD Tier.COLD

/-! ## Market state manager
Embedding of `MarketStateManager` from
`src/anchorgrid/services/market_state_manager.py`.  Wall-clock instants
(`datetime.now()`) are modelled as seconds on an integer timeline;
`timedelta` values become second counts; `.weekday()` and `.hour` become
floor arithmetic on that timeline (day 0 of the timeline is a Thursday,
as for the Unix epoch, and Python floor division matches `Int.ediv`).
The TimescaleDB store is a list of bars; the yfinance scraper (whose
module is an external collaborator, not part of this core) is an oracle
mapping the index of each scraper invocation within one call to its
outcome, `none` standing for a raised exception or an empty payload. -/

inductive AssetClass where
  | EQUITY | CRYPTO | FOREX | MACRO | FUNDAMENTALS | NEWS
deriving DecidableEq, Repr

structure TTLPolicy where
  tradingHoursTtl : Int
  offHoursTtl : Int
  primarySource : String
  fallbackSources : List String
deriving DecidableEq, Repr

/-- Embeds `CACHE_POLICIES`, TTLs in seconds. -/
def CACHE_POLICIES : AssetClass → TTLPolicy
  | AssetClass.EQUITY =>
    { tradingHoursTtl := 15 * 60, offHoursTtl := 24 * 3600,
      primarySource := "yfinance", fallbackSources := ["alpha_vantage", "fmp"] }
  | AssetClass.CRYPTO =>
    { tradingHoursTtl := 2 * 60, offHoursTtl := 5 * 60,
      primarySource := "coingecko", fallbackSources := ["binance", "coinmarketcap"] }
  | AssetClass.FOREX =>
    { tradingHoursTtl := 5 * 60, offHoursTtl := 15 * 60,
      primarySource := "yfinance", fallbackSources := ["twelve_data"] }
  | AssetClass.MACRO =>
    { tradingHoursTtl := 7 * 86400, offHoursTtl := 30 * 86400,
      primarySource := "fred", fallbackSources := [] }
  | AssetClass.FUNDAMENTALS =>
    { tradingHoursTtl := 7 * 86400, offHoursTtl := 7 * 86400,
      primarySource := "fmp", fallbackSources := ["finnhub"] }
  | AssetClass.NEWS =>
    { tradingHoursTtl := 3600, offHoursTtl := 3600,
      primarySource := "newsapi", fallbackSources := ["finnhub"] }

/-- Computes `now.hour` on the second timeline. -/
def hourOf (now : Int) : Int := Int.ediv (Int.emod now 86400) 3600

/-- Computes `now.weekday()` (Monday = 0); day 0 of the timeline is a Thursday. -/
def weekdayOf (now : Int) : Int := Int.emod (Int.ediv now 86400 + 3) 7

/-- Embeds `MarketStateManager._get_current_ttl`. -/
def get_current_ttl (now : Int) (assetClass : AssetClass) (policy : TTLPolicy) : Int :=
  if assetClass = AssetClass.CRYPTO then policy.tradingHoursTtl
  else
    let isWeekday := weekdayOf now < 5
    let isTradingHours := 9 ≤ hourOf now ∧ hourOf now ≤ 17
    if isWeekday ∧ isTradingHours then policy.tradingHoursTtl
    else policy.offHoursTtl

/-- One OHLCV row. -/
structure Bar where
  timestamp : Int
  ticker : String
  interval : String
  openPrice : ℚ
  high : ℚ
  low : ℚ
  close : ℚ
  volume : Int
  adjClose : ℚ
  source : String
deriving DecidableEq, Repr

def dummyBar : Bar :=
  { timestamp := 0, ticker := "", interval := "", openPrice := 0, high := 0,
    low := 0, close := 0, volume := 0, adjClose := 0, source := "" }

/-- Insertion into a timestamp-descending list. -/
def insertDesc (b : Bar) : List Bar → List Bar
  | [] => [b]
  | x :: xs => if b.timestamp ≥ x.timestamp then b :: x :: xs else x :: insertDesc b xs

/-- Models `ORDER BY timestamp DESC` of the store query. -/
def sortByTsDesc : List Bar → List Bar
  | [] => []
  | b :: bs => insertDesc b (sortByTsDesc bs)

/-- The store query inside `_get_from_cache`: bars of this ticker and
interval with `timestamp >= now - lookback_days`, newest first. -/
def cacheQuery (store : List Bar) (ticker interval : String) (now : Int)
    (lookbackDays : ℕ) : List Bar :=
  let cutoffDate := now - (lookbackDays : Int) * 86400
  sortByTsDesc (store.filter fun b =>
    b.ticker == ticker && b.interval == interval && decide (b.timestamp ≥ cutoffDate))

/-- Embeds `MarketStateManager._get_from_cache`: `none` when no rows exist in
the lookback window or the most recent row is older than the freshness
cutoff `now - ttl`; otherwise the rows, newest first. -/
def get_from_cache (store : List Bar) (ticker : String) (assetClass : AssetClass)
    (interval : String) (lookbackDays : ℕ) (now : Int) : Option (List Bar) :=
  let policy := CACHE_POLICIES assetClass
  let ttl := get_current_ttl now assetClass policy
  let freshnessCutoff := now - ttl
  let rows := cacheQuery store ticker interval now lookbackDays
  match rows with
  | [] => none
  | mostRecent :: rest =>
    if mostRecent.timestamp < freshnessCutoff then none
    else some (mostRecent :: rest)

/-- One raw row of the scraper payload (`hist_data["data"]`).  A `none`
date models a `Date` field that fails to parse, which makes the per-row
`OHLCV(...)` conversion raise and the row be skipped. -/
structure RawRow where
  date : Option Int
  openPrice : ℚ
  high : ℚ
  low : ℚ
  close : ℚ
  volume : Int
  adjClose : Option ℚ
deriving DecidableEq, Repr

/-- The concrete connector `_fetch_from_source` invokes for every
attempted source name. -/
def YFINANCE_SCRAPER : String := "yfinance_scraper"

/-- Per-row conversion to an `OHLCV` object inside `_fetch_from_source`:
the bar is tagged with the *attempted source name*, and `Adj Close`
falls back to `Close`. -/
def rawToBar (ticker interval source : String) (r : RawRow) : Option Bar :=
  r.date.map fun d =>
    { timestamp := d, ticker := pyUpper ticker, interval := interval,
      openPrice := r.openPrice, high := r.high, low := r.low, close := r.close,
      volume := r.volume, adjClose := r.adjClose.getD r.close, source := source }

/-- Embeds `MarketStateManager._fetch_from_source` given the outcome of the one
scraper invocation it performs: `None` when the scraper raised or its
payload was missing or empty, otherwise the convertible rows. -/
def fetch_from_source (scraperResult : Option (List RawRow))
    (ticker source interval : String) : Option (List Bar) :=
  match scraperResult with
  | none => none
  | some [] => none
  | some rows => some (rows.filterMap (rawToBar ticker interval source))

/-- Trace of the source loop in `_fetch_and_cache`. -/
structure FetchTrace where
  data : Option (List Bar)
  attempts : List String
  connectors : List String
deriving DecidableEq, Repr

/-- The `for source in sources` loop of `_fetch_and_cache`:
`k` counts scraper invocations already consumed within this call.  The
loop keeps going on an exception or falsy data and breaks at the first
non-empty bar list; a final falsy `data` (Python `None` or `[]`) is
collapsed to `none`, which the caller treats identically
(`if not data: return []`). -/
def sourceLoop (scraper : ℕ → Option (List RawRow)) (ticker interval : String) :
    List String → ℕ → FetchTrace
  | [], _ => { data := none, attempts := [], connectors := [] }
  | src :: rest, k =>
    match fetch_from_source (scraper k) ticker src interval with
    | some bars =>
      if bars.isEmpty then
        let t := sourceLoop scraper ticker interval rest (k + 1)
        { data := t.data, attempts := src :: t.attempts,
          connectors := YFINANCE_SCRAPER :: t.connectors }
      else
        { data := some bars, attempts := [src], connectors := [YFINANCE_SCRAPER] }
    | none =>
      let t := sourceLoop scraper ticker interval rest (k + 1)
      { data := t.data, attempts := src :: t.attempts,
        connectors := YFINANCE_SCRAPER :: t.connectors }

/-- A fetch attempt outcome that the source loop treats as falsy and
skips past: an exception or missing payload (`none`) or an empty bar
list. -/
def fetchEmptyish : Option (List Bar) → Bool
  | none => true
  | some l => l.isEmpty

/-- The per-attempt fetch outcomes for a given source-name list, `k`
being the index of the first scraper invocation. -/
def attemptResults (scraper : ℕ → Option (List RawRow)) (ticker interval : String) :
    List String → ℕ → List (Option (List Bar))
  | [], _ => []
  | s :: rest, k =>
    fetch_from_source (scraper k) ticker s interval ::
      attemptResults scraper ticker interval rest (k + 1)

/-- Result of one `get_market_data` call together with its externally
visible effects: the source names iterated with a fetch attempt, the
concrete connector invoked for each attempt, and the bars passed to the
store upsert. -/
structure GmdResult where
  bars : List Bar
  registry : TickerRegistry
  attempts : List String
  connectors : List String
  upserted : List Bar
deriving DecidableEq, Repr

/-- Embeds `MarketStateManager._fetch_and_cache`: run the source loop over
`[primary_source] + fallback_sources`; on a falsy final `data` return
`[]` without an upsert, otherwise upsert all returned bars and return
them (the dict reshaping is a field-for-field copy and is left as the
bar itself). -/
def fetch_and_cache (scraper : ℕ → Option (List RawRow)) (ticker : String)
    (assetClass : AssetClass) (interval : String) :
    List Bar × List String × List String × List Bar :=
  let policy := CACHE_POLICIES assetClass
  let sources := policy.primarySource :: policy.fallbackSources
  let t := sourceLoop scraper ticker interval sources 0
  match t.data with
  | none => ([], t.attempts, t.connectors, [])
  | some bars => (bars, t.attempts, t.connectors, bars)

/-- Embeds `MarketStateManager.get_market_data`: uppercase the ticker, record
the access, serve from cache when `force_refresh` is false and the cache
is fresh, otherwise fetch and cache. -/
def get_market_data (scraper : ℕ → Option (List RawRow)) (reg : TickerRegistry)
    (store : List Bar) (now : Int) (ticker : String) (assetClass : AssetClass)
    (interval : String) (lookbackDays : ℕ) (forceRefresh : Bool) : GmdResult :=
  let tk := pyUpper ticker
  let reg2 := (record_access reg tk now).1
  let cached :=
    if forceRefresh then none
    else get_from_cache store tk assetClass interval lookbackDays now
  match cached with
  | some rows =>
    { bars := rows, registry := reg2, attempts := [], connectors := [], upserted := [] }
  | none =>
    let (bars, attempts, connectors, upserted) :=
      fetch_and_cache scraper tk assetClass interval
    { bars := bars, registry := reg2, attempts := attempts,
      connectors := connectors, upserted := upserted }

/-! ## Concrete fixtures used by the scenario claims -/

/-- The fixture `SAMPLE_PRICES` from `src/anchorgrid/api/v1/market.py`: the 30-point
fixture rising from 100 to a high of 129. -/
def SAMPLE_PRICES : List ℚ :=
  [100, 102, 101, 103, 105,
   104, 106, 108, 107, 109,
   111, 110, 112, 114, 113,
   115, 117, 116, 118, 120,
   119, 121, 123, 122, 124,
   126, 125, 127, 129, 128]

/-- A monotonically increasing 20-bar series (no losses). -/
def risingPrices20 : List ℚ := (List.range 20).map fun i => (100 + i : ℚ)

/-- A monotonically increasing 40-bar series, long enough for the
incremental MACD signal line to warm up (index 33 on). -/
def risingPrices40 : List ℚ := (List.range 40).map fun i => (100 + i : ℚ)

/-! ## Spec-side composite aggregation
Definitions following only the words of the spec, for comparison with
`calculate_composite_score`: the list of contributing
`(weight, component score)` pairs, the weighted average over it, the
signal thresholds, and the mean of absolute component scores. -/

/-- The `(weight, score)` pairs of the components actually supplied
(spec weights: RSI 0.25, MACD 0.35, EMA 0.40; the EMA component needs
both EMAs). -/
def specContributing (price : ℚ) (rsiVal : Option ℚ)
    (macdVal : Option (ℚ × ℚ × ℚ)) (ema20 ema50 : Option ℚ) : List (ℚ × ℚ) :=
  (match rsiVal with
   | some r => [((25 : ℚ)/100, (calculate_rsi_signal r).1)]
   | none => []) ++
  (match macdVal with
   | some (line, sig, hist) => [((35 : ℚ)/100, (calculate_macd_signal line sig hist none).1)]
   | none => []) ++
  (match ema20, ema50 with
   | some e20, some e50 => [((40 : ℚ)/100, (calculate_ema_signal price e20 e50).1)]
   | _, _ => [])

/-- Weighted average over the contributing components only; 0 when none
contribute. -/
def specWeightedAverage (l : List (ℚ × ℚ)) : ℚ :=
  if l = [] then 0 else (l.map fun p => p.1 * p.2).sum / (l.map Prod.fst).sum

/-- The spec signal thresholds over the final score. -/
def specSignalFor (score : ℚ) : Signal :=
  if score ≥ 6/10 then Signal.STRONG_BUY
  else if score ≥ 2/10 then Signal.BUY
  else if score ≤ -(6/10) then Signal.STRONG_SELL
  else if score ≤ -(2/10) then Signal.SELL
  else Signal.HOLD

/-- Mean of the absolute component scores over the contributing
components; 0 when none contribute. -/
def specConfidence (l : List (ℚ × ℚ)) : ℚ :=
  if l = [] then 0 else (l.map fun p => |p.2|).sum / (l.length : ℚ)

end AnchorGrid

namespace AnchorGrid

/-! # Theorems -/

/-! ## Helper lemmas -/

theorem dictGet_dictSet_self {α : Type} (d : List (String × α)) (k : String) (v : α) :
    dictGet (dictSet d k v) k = some v := by
  induction d with
  | nil => simp [dictGet, dictSet]
  | cons hd tl ih =>
    obtain ⟨k2, v2⟩ := hd
    by_cases h : k2 = k
    · simp [dictGet, dictSet, h]
    · simp [dictGet, dictSet, h, ih]

theorem charToUpper_idem (c : Char) : Char.toUpper (Char.toUpper c) = Char.toUpper c := by
  by_cases h : 97 ≤ c.toNat ∧ c.toNat ≤ 122
  · have h1 : Char.toUpper c = Char.ofNat (c.toNat - 32) := by
      unfold Char.toUpper
      exact if_pos h
    rw [h1]
    obtain ⟨ha, hb⟩ := h
    set n := c.toNat with hn
    interval_cases n <;> decide
  · have h1 : Char.toUpper c = c := by
      unfold Char.toUpper
      exact if_neg h
    rw [h1, h1]

theorem mapToUpper_idem (l : List Char) :
    (l.map Char.toUpper).map Char.toUpper = l.map Char.toUpper := by
  induction l with
  | nil => rfl
  | cons hd tl ih => simp [charToUpper_idem, ih]

theorem pyUpper_idem (s : String) : pyUpper (pyUpper s) = pyUpper s := by
  unfold pyUpper
  exact congrArg String.mk (mapToUpper_idem s.data)

/-! ## Claim theorems -/

/-- Claim C9: the tier derived from an access count is hot iff the count
is at least 50, warm iff it lies in [5, 49], cold iff it lies in [1, 4],
and frozen iff it is 0; in particular counts 0, 4, 5, 49, 50 map to
frozen, cold, warm, warm, hot. -/
theorem c9_tier_thresholds (n : ℕ) :
    (calculate_tier n = Tier.HOT ↔ 50 ≤ n) ∧
    (calculate_tier n = Tier.WARM ↔ 5 ≤ n ∧ n ≤ 49) ∧
    (calculate_tier n = Tier.COLD ↔ 1 ≤ n ∧ n ≤ 4) ∧
    (calculate_tier n = Tier.FROZEN ↔ n = 0) ∧
    (calculate_tier 0 = Tier.FROZEN ∧ calculate_tier 4 = Tier.COLD ∧
     calculate_tier 5 = Tier.WARM ∧ calculate_tier 49 = Tier.WARM ∧
     calculate_tier 50 = Tier.HOT) := by
  refine ⟨?_, ?_, ?_, ?_, by decide, by decide, by decide, by decide, by decide⟩ <;>
    · unfold calculate_tier TIER_THRESHOLD_HOT TIER_THRESHOLD_WARM TIER_THRESHOLD_COLD
      split_ifs <;> simp_all <;> omega

unseal Rat.add Rat.sub Rat.mul Rat.inv in
/-- Claim C2 (code bug evaluated at the failing input): on the
monotonically increasing 20-bar series the batch `rsi` yields
`100 - 100/(1+100) = 10000/101` at its last (defined) index because the
code substitutes 100 for `rs`, not for the RSI, when the average loss is
zero, while the incremental `RSIState.update` yields exactly 100 there. -/
theorem c2_rsi_avg_loss_zero_divergence :
    (rsi risingPrices20 14).getLast? = some (some (10000/101)) ∧
    (10000 : ℚ)/101 ≠ 100 ∧
    (runMachine RSIState.update {} risingPrices20).getLast? = some (some 100) := by
  decide

unseal Rat.add Rat.sub Rat.mul Rat.inv in
/-- Claim C1 (code bug evaluated at the failing input): on the
monotonically increasing 40-bar series, at the last index the batch
`rsi` yields `10000/101` (about 99.01) while the incremental machine
inside `IndicatorState.update` yields exactly 100 — a relative gap of
about 1e-2, far beyond the 1e-9 tolerance — and the batch `macd` signal
line is NaN at every single index (the NaN seed of the signal-line EMA
propagates through the whole array), while the incremental machine
produces a defined MACD triple at that index. -/
theorem c1_batch_incremental_divergence :
    (rsi risingPrices40 14).getLast? = some (some (10000/101)) ∧
    ((runMachine IndicatorState.update {} risingPrices40).getLastD
      { ema20 := none, ema50 := none, rsi14 := none, macdVal := none }).rsi14 = some 100 ∧
    ((macd risingPrices40 12 26 9).2.1).all (fun v => v = none) = true ∧
    ((runMachine IndicatorState.update {} risingPrices40).getLastD
      { ema20 := none, ema50 := none, rsi14 := none, macdVal := none }).macdVal.isSome = true := by
  decide

unseal Rat.add Rat.sub Rat.mul Rat.inv in
/-- Claim C3 counterexample: on the 30-point rising fixture the analyze
pipeline does not produce a buy or strong-buy composite signal. -/
theorem c3_composite_fixture_counterexample :
    ¬((analyzeComposite SAMPLE_PRICES).signal = Signal.BUY ∨
      (analyzeComposite SAMPLE_PRICES).signal = Signal.STRONG_BUY) := by
  decide

/-- Claim C7 counterexample: `record_access` of a fresh registry and the
ticker AAPL computes a tier but returns the Python value `None`, not the
recomputed tier (the Python function body has no return statement), so
the stated contract `record_access(ticker) -> Tier` fails on its result
value. -/
theorem c7_record_access_counterexample :
    (record_access {} "AAPL" 0).2 = none ∧
    (record_access {} "AAPL" 0).2 ≠ some (calculate_tier 1) ∧
    get_tier (record_access {} "AAPL" 0).1 "AAPL" = calculate_tier 1 := by
  decide

/-- Claim C7 as amended: `record_access` increments the rolling access
counter of the uppercased ticker and recomputes and stores the tier from
the fixed thresholds, observable through `get_tier`, but its return
value is `None`, not the tier. -/
theorem c7_record_access_amended (reg : TickerRegistry) (ticker : String) (now : Int) :
    (record_access reg ticker now).2 = none ∧
    dictGet (record_access reg ticker now).1.accessCounts (pyUpper ticker) =
      some ((dictGet reg.accessCounts (pyUpper ticker)).getD 0 + 1) ∧
    get_tier (record_access reg ticker now).1 ticker =
      calculate_tier ((dictGet reg.accessCounts (pyUpper ticker)).getD 0 + 1) := by
  unfold record_access get_tier
  refine ⟨rfl, dictGet_dictSet_self _ _ _, ?_⟩
  dsimp only
  rw [dictGet_dictSet_self]
  simp only [Option.getD_some]
  by_cases h : calculate_tier ((dictGet reg.accessCounts (pyUpper ticker)).getD 0 + 1) ≠
      (dictGet reg.tiers (pyUpper ticker)).getD Tier.COLD
  · rw [if_pos h, dictGet_dictSet_self]
    rfl
  · rw [if_neg h]
    exact (not_ne_iff.mp h).symm

/-- Claim C10: registry keys are case-insensitive — `record_access` on a
ticker produces exactly the same registry and result as on its
uppercased form, and `get_tier` agrees on both spellings. -/
theorem c10_registry_case_insensitive (reg : TickerRegistry) (ticker : String) (now : Int) :
    record_access reg ticker now = record_access reg (pyUpper ticker) now ∧
    get_tier reg ticker = get_tier reg (pyUpper ticker) := by
  unfold record_access get_tier
  rw [pyUpper_idem]
  exact ⟨rfl, rfl⟩

/-- Claim C8: the composite score equals the weighted average (weights
RSI 0.25, MACD 0.35, EMA 0.40) over only the components actually
supplied — a missing component is excluded from numerator and
denominator alike — the signal is classified from the score by the
thresholds 0.6 / 0.2 / -0.2 / -0.6, and the confidence is the mean of
the absolute component scores over the contributing components, 0 when
none contribute. -/
theorem c8_composite_aggregation (price : ℚ) (rsiVal : Option ℚ)
    (macdVal : Option (ℚ × ℚ × ℚ)) (ema20 ema50 : Option ℚ) :
    (calculate_composite_score price rsiVal macdVal ema20 ema50 none).score =
      specWeightedAverage (specContributing price rsiVal macdVal ema20 ema50) ∧
    (calculate_composite_score price rsiVal macdVal ema20 ema50 none).signal =
      specSignalFor (calculate_composite_score price rsiVal macdVal ema20 ema50 none).score ∧
    (calculate_composite_score price rsiVal macdVal ema20 ema50 none).confidence =
      specConfidence (specContributing price rsiVal macdVal ema20 ema50) := by
  obtain _ | r := rsiVal <;> obtain _ | ⟨line, sig, hist⟩ := macdVal <;>
    obtain _ | e20 := ema20 <;> obtain _ | e50 := ema50 <;>
      refine ⟨?_, ?_, ?_⟩ <;>
      · dsimp only [calculate_composite_score, specContributing, specWeightedAverage,
          specSignalFor, specConfidence, defaultWeights]
        try simp
        try norm_num
        try ring

unseal Rat.add Rat.sub Rat.mul Rat.inv in
/-- Claim C3 as amended: on the 30-point rising fixture the composite
signal is strong_sell with score -0.8 and confidence 0.8 — the RSI
component alone contributes (about 78.2 reads as overbought, score
-0.8), the EMA component is excluded because `ema_50` is undefined on 30
bars, and the MACD component is excluded because the batch signal line
is NaN everywhere. -/
theorem c3_composite_fixture_strong_sell :
    (analyzeComposite SAMPLE_PRICES).signal = Signal.STRONG_SELL ∧
    (analyzeComposite SAMPLE_PRICES).score = -(8/10) ∧
    (analyzeComposite SAMPLE_PRICES).confidence = 8/10 ∧
    (analyzeComposite SAMPLE_PRICES).components.map Prod.fst = ["rsi"] := by
  decide

/-! ## Market state manager lemmas -/

theorem sourceLoop_take (scraper : ℕ → Option (List RawRow)) (tk interval : String) :
    ∀ (sources : List String) (k : ℕ),
    sources.take (sourceLoop scraper tk interval sources k).attempts.length =
      (sourceLoop scraper tk interval sources k).attempts := by
  intro sources
  induction sources with
  | nil => intro k; rfl
  | cons src rest ih =>
    intro k
    cases hf : fetch_from_source (scraper k) tk src interval with
    | none => simp [sourceLoop, hf, ih (k + 1)]
    | some bars =>
      by_cases hb : bars.isEmpty
      · simp [sourceLoop, hf, hb, ih (k + 1)]
      · simp [sourceLoop, hf, hb]

theorem sourceLoop_connectors (scraper : ℕ → Option (List RawRow)) (tk interval : String) :
    ∀ (sources : List String) (k : ℕ),
    (sourceLoop scraper tk interval sources k).connectors =
      List.replicate (sourceLoop scraper tk interval sources k).attempts.length
        YFINANCE_SCRAPER := by
  intro sources
  induction sources with
  | nil => intro k; rfl
  | cons src rest ih =>
    intro k
    cases hf : fetch_from_source (scraper k) tk src interval with
    | none => simp [sourceLoop, hf, ih (k + 1), List.replicate_succ]
    | some bars =>
      by_cases hb : bars.isEmpty
      · simp [sourceLoop, hf, hb, ih (k + 1), List.replicate_succ]
      · simp [sourceLoop, hf, hb, List.replicate_succ]

theorem sourceLoop_none (scraper : ℕ → Option (List RawRow)) (tk interval : String) :
    ∀ (sources : List String) (k : ℕ),
    (sourceLoop scraper tk interval sources k).data = none →
    (sourceLoop scraper tk interval sources k).attempts = sources ∧
    (attemptResults scraper tk interval sources k).all fetchEmptyish = true := by
  intro sources
  induction sources with
  | nil => intro k _; exact ⟨rfl, rfl⟩
  | cons src rest ih =>
    intro k hnone
    cases hf : fetch_from_source (scraper k) tk src interval with
    | none =>
      simp only [sourceLoop, hf] at hnone ⊢
      obtain ⟨h1, h2⟩ := ih (k + 1) hnone
      simp [attemptResults, hf, fetchEmptyish, h1, h2]
    | some bars =>
      by_cases hb : bars.isEmpty
      · simp only [sourceLoop, hf, hb, if_true] at hnone ⊢
        obtain ⟨h1, h2⟩ := ih (k + 1) hnone
        simp [attemptResults, hf, fetchEmptyish, hb, h1, h2]
      · simp [sourceLoop, hf, hb] at hnone

theorem attemptResults_eq_nil (scraper : ℕ → Option (List RawRow)) (tk interval : String)
    (sources : List String) (k : ℕ) :
    attemptResults scraper tk interval sources k = [] ↔ sources = [] := by
  cases sources <;> simp [attemptResults]

theorem getLastq_cons_of_ne_nil {α : Type} (a : α) (l : List α) (h : l ≠ []) :
    (a :: l).getLast? = l.getLast? := by
  cases l with
  | nil => exact absurd rfl h
  | cons b m => simp

theorem sourceLoop_some (scraper : ℕ → Option (List RawRow)) (tk interval : String) :
    ∀ (sources : List String) (k : ℕ) (bars : List Bar),
    (sourceLoop scraper tk interval sources k).data = some bars →
    bars ≠ [] ∧
    (sourceLoop scraper tk interval sources k).attempts ≠ [] ∧
    (attemptResults scraper tk interval
      (sourceLoop scraper tk interval sources k).attempts k).dropLast.all
        fetchEmptyish = true ∧
    (attemptResults scraper tk interval
      (sourceLoop scraper tk interval sources k).attempts k).getLast? =
      some (some bars) := by
  intro sources
  induction sources with
  | nil => intro k bars h; exact absurd h (by simp [sourceLoop])
  | cons src rest ih =>
    intro k bars hsome
    cases hf : fetch_from_source (scraper k) tk src interval with
    | none =>
      simp only [sourceLoop, hf] at hsome ⊢
      obtain ⟨h1, h2, h3, h4⟩ := ih (k + 1) bars hsome
      have hne : attemptResults scraper tk interval
          (sourceLoop scraper tk interval rest (k + 1)).attempts (k + 1) ≠ [] := by
        simp [attemptResults_eq_nil, h2]
      refine ⟨h1, by simp, ?_, ?_⟩
      · rw [attemptResults, List.dropLast_cons_of_ne_nil hne]
        simp [fetchEmptyish, hf, h3]
      · rw [attemptResults, getLastq_cons_of_ne_nil _ _ hne]
        exact h4
    | some fbars =>
      by_cases hb : fbars.isEmpty
      · simp only [sourceLoop, hf, hb, if_true] at hsome ⊢
        obtain ⟨h1, h2, h3, h4⟩ := ih (k + 1) bars hsome
        have hne : attemptResults scraper tk interval
            (sourceLoop scraper tk interval rest (k + 1)).attempts (k + 1) ≠ [] := by
          simp [attemptResults_eq_nil, h2]
        refine ⟨h1, by simp, ?_, ?_⟩
        · rw [attemptResults, List.dropLast_cons_of_ne_nil hne]
          simp [fetchEmptyish, hf, hb, h3]
        · rw [attemptResults, getLastq_cons_of_ne_nil _ _ hne]
          exact h4
      · have hfb : fbars = bars := by
          simpa [sourceLoop, hf, hb] using hsome
        subst hfb
        have hne : fbars ≠ [] := by
          simpa [List.isEmpty_iff] using hb
        refine ⟨hne, ?_, ?_, ?_⟩
        · simp [sourceLoop, hf, hb]
        · simp [sourceLoop, hf, hb, attemptResults]
        · simp [sourceLoop, hf, hb, attemptResults]

theorem sourceLoop_all_fail (scraper : ℕ → Option (List RawRow)) (tk interval : String)
    (hfail : ∀ (k : ℕ) (s : String),
      fetchEmptyish (fetch_from_source (scraper k) tk s interval) = true) :
    ∀ (sources : List String) (k : ℕ),
    (sourceLoop scraper tk interval sources k).data = none := by
  intro sources
  induction sources with
  | nil => intro k; rfl
  | cons src rest ih =>
    intro k
    cases hf : fetch_from_source (scraper k) tk src interval with
    | none => simp [sourceLoop, hf, ih (k + 1)]
    | some bars =>
      have hb : bars.isEmpty = true := by
        have := hfail k src
        rw [hf] at this
        exact this
      simp [sourceLoop, hf, hb, ih (k + 1)]

/-! ## Claim theorems about the market state manager -/

/-- Claim C4: with a fixed now, when the store holds bars of the ticker
and interval inside the lookback window and the most recent of them is
at least as recent as `now - ttl(asset_class, now)`, a
`get_market_data` call without force_refresh returns exactly those
cached bars, attempts no source, invokes no connector, and performs no
upsert. -/
theorem c4_cache_hit (scraper : ℕ → Option (List RawRow)) (reg : TickerRegistry)
    (store : List Bar) (now : Int) (ticker : String) (assetClass : AssetClass)
    (interval : String) (lookbackDays : ℕ)
    (hne : cacheQuery store (pyUpper ticker) interval now lookbackDays ≠ [])
    (hfresh : now - get_current_ttl now assetClass (CACHE_POLICIES assetClass) ≤
      ((cacheQuery store (pyUpper ticker) interval now lookbackDays).headD dummyBar).timestamp) :
    get_market_data scraper reg store now ticker assetClass interval lookbackDays false =
      { bars := cacheQuery store (pyUpper ticker) interval now lookbackDays,
        registry := (record_access reg (pyUpper ticker) now).1,
        attempts := [], connectors := [], upserted := [] } := by
  unfold get_market_data get_from_cache
  dsimp only
  cases hq : cacheQuery store (pyUpper ticker) interval now lookbackDays with
  | nil => exact absurd hq hne
  | cons r rest =>
    rw [hq] at hfresh
    simp only [List.headD_cons] at hfresh
    simp only [Bool.false_eq_true, if_false]
    rw [if_neg (not_lt.mpr hfresh)]

/-- Claim C4 witness: a one-bar store whose bar is as fresh as now. -/
theorem c4_cache_hit_witness :
    cacheQuery [⟨1000000, "AAPL", "1d", 1, 1, 1, 1, 10, 1, "yfinance"⟩]
        (pyUpper "AAPL") "1d" 1000000 30 ≠ [] ∧
    1000000 - get_current_ttl 1000000 AssetClass.EQUITY (CACHE_POLICIES AssetClass.EQUITY) ≤
      ((cacheQuery [⟨1000000, "AAPL", "1d", 1, 1, 1, 1, 10, 1, "yfinance"⟩]
        (pyUpper "AAPL") "1d" 1000000 30).headD dummyBar).timestamp ∧
    get_market_data (fun _ => none) {} [⟨1000000, "AAPL", "1d", 1, 1, 1, 1, 10, 1, "yfinance"⟩]
        1000000 "AAPL" AssetClass.EQUITY "1d" 30 false =
      { bars := cacheQuery [⟨1000000, "AAPL", "1d", 1, 1, 1, 1, 10, 1, "yfinance"⟩]
          (pyUpper "AAPL") "1d" 1000000 30,
        registry := (record_access {} (pyUpper "AAPL") 1000000).1,
        attempts := [], connectors := [], upserted := [] } :=
  ⟨by decide, by decide,
    c4_cache_hit (fun _ => none) {} [⟨1000000, "AAPL", "1d", 1, 1, 1, 1, 10, 1, "yfinance"⟩]
      1000000 "AAPL" AssetClass.EQUITY "1d" 30 (by decide) (by decide)⟩

/-- Claim C5 counterexample: on a cache miss for a crypto ticker the
first attempted source name is coingecko, yet the connector invoked is
the yfinance scraper — the coingecko connector is never called — and the
returned bars are merely labelled with the attempted source name.  So
"calling the connector for each source" fails on the code, which routes
every attempt through the yfinance scraper. -/
theorem c5_connector_dispatch_counterexample :
    (get_market_data (fun _ => some [⟨some 7, 1, 1, 1, 1, 1, none⟩]) {} [] 0 "BTC"
        AssetClass.CRYPTO "1d" 30 false).attempts = ["coingecko"] ∧
    (get_market_data (fun _ => some [⟨some 7, 1, 1, 1, 1, 1, none⟩]) {} [] 0 "BTC"
        AssetClass.CRYPTO "1d" 30 false).connectors = [YFINANCE_SCRAPER] ∧
    ¬ "coingecko" ∈ (get_market_data (fun _ => some [⟨some 7, 1, 1, 1, 1, 1, none⟩]) {} [] 0 "BTC"
        AssetClass.CRYPTO "1d" 30 false).connectors ∧
    ((get_market_data (fun _ => some [⟨some 7, 1, 1, 1, 1, 1, none⟩]) {} [] 0 "BTC"
        AssetClass.CRYPTO "1d" 30 false).bars.map Bar.source) = ["coingecko"] := by
  decide

/-- Claim C5 as amended: on a cache miss (or force refresh) the source
names `[primary_source] + fallback_sources` are iterated in order and
each is attempted at most once, but every attempt invokes the yfinance
scraper regardless of the source name; the loop stops at the first
attempt yielding non-empty bars — every earlier attempt failed or was
empty and no later source is attempted — the returned bars are exactly
that bars of that attempt, and they are all upserted into the store. -/
theorem c5_source_chain_amended (scraper : ℕ → Option (List RawRow))
    (reg : TickerRegistry) (store : List Bar) (now : Int) (ticker : String)
    (assetClass : AssetClass) (interval : String) (lookbackDays : ℕ)
    (forceRefresh : Bool)
    (hmiss : forceRefresh = true ∨
      get_from_cache store (pyUpper ticker) assetClass interval lookbackDays now = none) :
    ((CACHE_POLICIES assetClass).primarySource :: (CACHE_POLICIES assetClass).fallbackSources).take
        (get_market_data scraper reg store now ticker assetClass interval lookbackDays
          forceRefresh).attempts.length =
      (get_market_data scraper reg store now ticker assetClass interval lookbackDays
        forceRefresh).attempts ∧
    (get_market_data scraper reg store now ticker assetClass interval lookbackDays
      forceRefresh).attempts.Nodup ∧
    (get_market_data scraper reg store now ticker assetClass interval lookbackDays
        forceRefresh).connectors =
      List.replicate (get_market_data scraper reg store now ticker assetClass interval
        lookbackDays forceRefresh).attempts.length YFINANCE_SCRAPER ∧
    (get_market_data scraper reg store now ticker assetClass interval lookbackDays
        forceRefresh).upserted =
      (get_market_data scraper reg store now ticker assetClass interval lookbackDays
        forceRefresh).bars ∧
    ((get_market_data scraper reg store now ticker assetClass interval lookbackDays
        forceRefresh).bars = [] →
      (get_market_data scraper reg store now ticker assetClass interval lookbackDays
          forceRefresh).attempts =
        (CACHE_POLICIES assetClass).primarySource :: (CACHE_POLICIES assetClass).fallbackSources ∧
      (attemptResults scraper (pyUpper ticker) interval
        ((CACHE_POLICIES assetClass).primarySource ::
          (CACHE_POLICIES assetClass).fallbackSources) 0).all fetchEmptyish = true) ∧
    ((get_market_data scraper reg store now ticker assetClass interval lookbackDays
        forceRefresh).bars ≠ [] →
      (attemptResults scraper (pyUpper ticker) interval
        (get_market_data scraper reg store now ticker assetClass interval lookbackDays
          forceRefresh).attempts 0).dropLast.all fetchEmptyish = true ∧
      (attemptResults scraper (pyUpper ticker) interval
        (get_market_data scraper reg store now ticker assetClass interval lookbackDays
          forceRefresh).attempts 0).getLast? =
        some (some (get_market_data scraper reg store now ticker assetClass interval
          lookbackDays forceRefresh).bars)) := by
  have hcached : (if forceRefresh then none
      else get_from_cache store (pyUpper ticker) assetClass interval lookbackDays now) =
      (none : Option (List Bar)) := by
    rcases hmiss with h | h
    · rw [h]
      simp
    · cases forceRefresh <;> simp [h]
  have hnodup : ((CACHE_POLICIES assetClass).primarySource ::
      (CACHE_POLICIES assetClass).fallbackSources).Nodup := by
    cases assetClass <;> decide
  unfold get_market_data fetch_and_cache
  dsimp only
  rw [hcached]
  dsimp only
  cases hd : (sourceLoop scraper (pyUpper ticker) interval
      ((CACHE_POLICIES assetClass).primarySource ::
        (CACHE_POLICIES assetClass).fallbackSources) 0).data with
  | none =>
    obtain ⟨h1, h2⟩ := sourceLoop_none scraper (pyUpper ticker) interval _ 0 hd
    simp only [hd]
    refine ⟨sourceLoop_take scraper (pyUpper ticker) interval _ 0, ?_,
      sourceLoop_connectors scraper (pyUpper ticker) interval _ 0, trivial,
      fun _ => ⟨h1, h2⟩, fun hcon => absurd rfl hcon⟩
    rw [← sourceLoop_take scraper (pyUpper ticker) interval _ 0]
    exact hnodup.sublist (List.take_sublist _ _)
  | some bars =>
    obtain ⟨h1, h2, h3, h4⟩ := sourceLoop_some scraper (pyUpper ticker) interval _ 0 bars hd
    simp only [hd]
    refine ⟨sourceLoop_take scraper (pyUpper ticker) interval _ 0, ?_,
      sourceLoop_connectors scraper (pyUpper ticker) interval _ 0, trivial,
      fun hcon => absurd hcon h1, fun _ => ⟨h3, h4⟩⟩
    rw [← sourceLoop_take scraper (pyUpper ticker) interval _ 0]
    exact hnodup.sublist (List.take_sublist _ _)

/-- Claim C5 witness: the amended chain contract instantiated on a
forced refresh whose first attempt succeeds. -/
theorem c5_source_chain_amended_witness :
    ((CACHE_POLICIES AssetClass.EQUITY).primarySource ::
        (CACHE_POLICIES AssetClass.EQUITY).fallbackSources).take
      (get_market_data (fun _ => some [⟨some 7, 1, 1, 1, 1, 1, none⟩]) {} [] 0 "IBM"
        AssetClass.EQUITY "1d" 30 true).attempts.length =
      (get_market_data (fun _ => some [⟨some 7, 1, 1, 1, 1, 1, none⟩]) {} [] 0 "IBM"
        AssetClass.EQUITY "1d" 30 true).attempts :=
  (c5_source_chain_amended (fun _ => some [⟨some 7, 1, 1, 1, 1, 1, none⟩]) {} [] 0 "IBM"
    AssetClass.EQUITY "1d" 30 true (Or.inl rfl)).1

/-- Claim C6: a call on which every attempted fetch fails or yields an
empty result returns an empty bar list as an ordinary value (the
embedded call is a total function, mirroring that the source catches
every per-source exception) and upserts nothing. -/
theorem c6_all_sources_fail (scraper : ℕ → Option (List RawRow))
    (reg : TickerRegistry) (store : List Bar) (now : Int) (ticker : String)
    (assetClass : AssetClass) (interval : String) (lookbackDays : ℕ)
    (forceRefresh : Bool)
    (hmiss : forceRefresh = true ∨
      get_from_cache store (pyUpper ticker) assetClass interval lookbackDays now = none)
    (hfail : ∀ (k : ℕ) (s : String),
      fetchEmptyish (fetch_from_source (scraper k) (pyUpper ticker) s interval) = true) :
    (get_market_data scraper reg store now ticker assetClass interval lookbackDays
      forceRefresh).bars = [] ∧
    (get_market_data scraper reg store now ticker assetClass interval lookbackDays
      forceRefresh).upserted = [] := by
  have hcached : (if forceRefresh then none
      else get_from_cache store (pyUpper ticker) assetClass interval lookbackDays now) =
      (none : Option (List Bar)) := by
    rcases hmiss with h | h
    · rw [h]
      simp
    · cases forceRefresh <;> simp [h]
  have hdata := sourceLoop_all_fail scraper (pyUpper ticker) interval hfail
    ((CACHE_POLICIES assetClass).primarySource ::
      (CACHE_POLICIES assetClass).fallbackSources) 0
  unfold get_market_data fetch_and_cache
  dsimp only
  rw [hcached]
  dsimp only
  rw [hdata]
  exact ⟨rfl, rfl⟩

/-- Claim C6 witness: a scraper that always raises, under force refresh. -/
theorem c6_all_sources_fail_witness :
    (get_market_data (fun _ => none) {} [] 0 "IBM" AssetClass.EQUITY "1d" 30 true).bars = [] ∧
    (get_market_data (fun _ => none) {} [] 0 "IBM" AssetClass.EQUITY "1d" 30 true).upserted = [] :=
  c6_all_sources_fail (fun _ => none) {} [] 0 "IBM" AssetClass.EQUITY "1d" 30 true
    (Or.inl rfl) (fun _ _ => rfl)

end AnchorGrid
